import Mathlib

/-!
# Shallow embedding of the VideoMD element builder (`videomd/videomd.py`)

The source library builds VideoMD metadata trees as `lxml.etree` elements.
We model an XML element as a tag, an ordered attribute list (lxml keeps
attribute insertion order), optional text, and an ordered child list.
Parameter dictionaries become association lists from keys to a sum type of
the value shapes the library documents (`None`, string, list of strings,
pre-built element, list of pre-built elements); Python `dict` lookup is
first-match lookup, and dict keys are unique.  Functions that can raise
`ValueError` return `Except String`.

Values outside a helper's documented domain (for example a pre-built
element passed where a string is expected) make `lxml` raise a `TypeError`
in the source; those inputs are outside the model, and the definitions
below return no nodes for them.  Theorems that depend on value shapes
carry explicit well-typedness hypotheses instead.
-/

namespace VideoMD

def VIDEOMD_NS : String := "http://www.loc.gov/videoMD/"

/-- `XSI_NS` as imported from the `xml_helpers.utils` dependency:
the standard XML Schema instance namespace. -/
def XSI_NS : String := "http://www.w3.org/2001/XMLSchema-instance"

def MEDIA_PARAMS : List String :=
  ["tracking", "duration", "language",
   "security", "size", "dataRate",
   "timecode", "use", "otherUse"]

def FILE_DATA_PARAMS : List String := MEDIA_PARAMS ++
  ["bitsPerSample", "byteOrder", "color",
   "otherColor", "messageDigest", "compression",
   "track", "dataRateUnit", "dataRateMode",
   "frame", "frameRate", "sampleRate",
   "location", "format", "sampling",
   "signalFormat", "sound"]

def PHYSICAL_DATA_PARAMS : List String :=
  ["EBUStorageMediaCodes", "colorBurst", "condition",
   "dimensions", "disposition", "dtv",
   "generation", "material", "numberCarriers",
   "physFormat", "signalFormat", "timecode",
   "tracking", "videodiscType", "videotapeType",
   "note"]

def TRACK_PARAMS : List String := MEDIA_PARAMS ++
  ["bitsPerSample", "bitsPerPixelStored", "codec",
   "compressionRatio", "quality", "frame",
   "frameRate", "sampleRate", "sampling",
   "sampleCount", "signalFormat"]

def FORMAT_PARAMS : List String :=
  ["annotation", "creatorApp", "creatorLib",
   "creatorLibDate", "creatorLibSettings", "name",
   "encodingDate", "TaggedDate", "commercialName",
   "mimetype", "profile", "settings",
   "version"]

def CODEC_PARAMS : List String := FORMAT_PARAMS ++
  ["codecID", "channelCount", "endianness",
   "scanType", "scanOrder", "sign"]

def DIMENSIONS_PARAMS : List String :=
  ["DEPTH", "DIAMETER", "GAUGE",
   "HEIGHT", "LENGTH", "NOTE",
   "THICKNESS", "UNITS", "WIDTH"]

def MATERIAL_PARAMS : List String :=
  ["baseMaterial", "binder", "discSurface",
   "oxide", "activeLayer", "reflectiveLayer",
   "stockBrand", "method", "usedSides"]

def VARIABLE_RATE_PARAMS : List String :=
  ["maximum", "minimum", "mode",
   "nominal", "unit"]

/-- An `lxml.etree` element: tag, attributes in insertion order,
optional text, children in document order. -/
inductive Elem where
  | mk (tag : String) (attrs : List (String × String)) (text : Option String)
       (children : List Elem)

def Elem.tag : Elem → String
  | .mk t _ _ _ => t

def Elem.attrs : Elem → List (String × String)
  | .mk _ a _ _ => a

def Elem.text : Elem → Option String
  | .mk _ _ x _ => x

def Elem.children : Elem → List Elem
  | .mk _ _ _ c => c

/-- Appending children to an element (`parent.append(...)` / `SubElement`). -/
def Elem.addChildren : Elem → List Elem → Elem
  | .mk t a x c, new => .mk t a x (c ++ new)

/-- The shapes a Python parameter value takes in this library:
`None`, a string, a list of strings, a pre-built element, or a list of
pre-built elements. -/
inductive Value where
  | null
  | str (s : String)
  | strs (ss : List String)
  | elem (e : Elem)
  | elems (es : List Elem)

/-- Whether a value is a plain string or `None` — the shapes
`vmd_dimensions` handles (`get_params` initialises every key to `None`,
and string values are what `elem.set` accepts). -/
def Value.isStrOrNull : Value → Bool
  | .str _ => true
  | .null => true
  | _ => false

/-- A Python parameter dict: association list, unique keys, first-match
lookup. -/
abbrev Params := List (String × Value)

/-- Dict lookup `params[key]` (with `key in params` as `isSome`). -/
def plookup (p : Params) (k : String) : Option Value :=
  match p with
  | [] => none
  | (k', v) :: rest => if k' = k then some v else plookup rest k

/-- String-valued dict lookup, for attribute dicts. -/
def slookup (p : List (String × String)) (k : String) : Option String :=
  match p with
  | [] => none
  | (k', v) :: rest => if k' = k then some v else slookup rest k

/-- `tag[0].upper() + tag[1:]` on a non-empty string; identity on `""`
(where the source raises `IndexError` instead, see `videomd_ns`). -/
def capFirst (s : String) : String :=
  match s.data with
  | [] => s
  | c :: cs => String.mk (Char.toUpper c :: cs)

/-- `videomd_ns(tag, prefix)`.  With a truthy (non-empty) prefix the
source evaluates `tag[0]`, which raises `IndexError` on an empty tag;
that failure is modelled as `none`. -/
def videomd_ns (tag : String) (pfx : String := "") : Option String :=
  if pfx = "" then
    some ("\x7b" ++ VIDEOMD_NS ++ "\x7d" ++ tag)
  else
    match tag.data with
    | [] => none
    | c :: cs =>
      some ("\x7b" ++ VIDEOMD_NS ++ "\x7d" ++ pfx ++ String.mk (Char.toUpper c :: cs))

/-- The total prefix-free namespace qualifier: `videomd_ns tag "" = some (vNs tag)`
(proved below as `videomd_ns_no_prefix`).  All internal element
constructions in the source call `videomd_ns` without a prefix. -/
def vNs (tag : String) : String := "\x7b" ++ VIDEOMD_NS ++ "\x7d" ++ tag

/-- `_element(tag)`: a fresh namespaced element, no attributes, no text,
no children (lxml initialises `text` to `None`). -/
def _element (tag : String) : Elem := Elem.mk (vNs tag) [] none []

/-- The nodes `_simple_elements` appends for a given value.  `null`
creates nothing (the source skips `None`); element-shaped values are
outside the documented domain ("String or list of strings") and make
lxml raise, so they contribute no nodes in the model. -/
def simpleNodes (element_name : String) : Value → List Elem
  | .str s => [Elem.mk (vNs element_name) [] (some s) []]
  | .strs ss => ss.map (fun s => Elem.mk (vNs element_name) [] (some s) [])
  | _ => []

/-- `_simple_elements(parent, element_values, element_name)`. -/
def _simple_elements (parent : Elem) (element_values : Value)
    (element_name : String) : Elem :=
  parent.addChildren (simpleNodes element_name element_values)

/-- The nodes `_add_elements` appends: a pre-built element or list of
them, nothing for `None`.  String-shaped values are outside the
documented domain ("Element to be added"). -/
def addNodes : Value → List Elem
  | .elem e => [e]
  | .elems es => es
  | _ => []

/-- `_add_elements(parent, elements)`. -/
def _add_elements (parent : Elem) (elements : Value) : Elem :=
  parent.addChildren (addNodes elements)

/-- `_location(location, loc_type)`. -/
def _location (location : String) (loc_type : Option String) : Elem :=
  match loc_type with
  | none => Elem.mk (vNs "location") [] (some location) []
  | some t =>
    if ["URN", "URL", "PURL", "HANDLE", "DOI"].contains t then
      Elem.mk (vNs "location") [("type", t)] (some location) []
    else
      Elem.mk (vNs "location") [("type", "OTHER"), ("otherType", t)]
        (some location) []

/-- `_variable_rate(key, rate, attr_dict)`: attributes are set by walking
`VARIABLE_RATE_PARAMS` in order and copying the keys present in the
dict. -/
def _variable_rate (key : String) (rate : String)
    (attr_dict : Option (List (String × String))) : Elem :=
  match attr_dict with
  | none => Elem.mk (vNs key) [] (some rate) []
  | some d =>
    Elem.mk (vNs key)
      (VARIABLE_RATE_PARAMS.filterMap (fun sk => (slookup d sk).map (fun v => (sk, v))))
      (some rate) []

/-- The message of the `ValueError` raised by `_check_params`:
`"Parameter: '%s' not recognized" % key`. -/
def errMsg (key : String) : String :=
  "Parameter: \x27" ++ key ++ "\x27 not recognized"

/-- `_check_params(param_dict, param_list)`: raises `ValueError` on the
first key of the dict that is not in the whitelist. -/
def _check_params (param_dict : Params) (param_list : List String) :
    Except String Unit :=
  match param_dict with
  | [] => .ok ()
  | (k, _) :: rest =>
    if param_list.contains k then _check_params rest param_list
    else .error (errMsg k)

def optList : Option Elem → List Elem
  | none => []
  | some e => [e]

/-- `create_videomd(...)`: root element with the fixed schema-location
pair, the analog/digital flag, and the supplied sections in fixed
order. -/
def create_videomd (analog_digital_flag : String := "FileDigital")
    (file_data : Option Elem := none) (physical_data : Option Elem := none)
    (video_info : Option Elem := none) (calibration_info : Option Elem := none) :
    Elem :=
  Elem.mk (vNs "VIDEOMD")
    [(("\x7b" ++ XSI_NS ++ "\x7d" ++ "schemaLocation"),
      "http://www.loc.gov/VideoMD/ https://www.loc.gov/standards/vmdvmd/VideoMD.xsd"),
     ("ANALOGDIGITALFLAG", analog_digital_flag)]
    none
    (optList file_data ++ optList physical_data ++ optList video_info ++
      optList calibration_info)

/-- The `attr_dict` mapping built inside `vmd_file_data` / `vmd_track`:
rate key to caller-supplied attribute dict. -/
def rateAttr (drate_attr frate_attr srate_attr : Option (List (String × String)))
    (key : String) : Option (List (String × String)) :=
  if key = "dataRate" then drate_attr
  else if key = "frameRate" then frate_attr
  else srate_attr

/-- The subtree-valued keys of `vmd_file_data` (inline list in the source). -/
def FILE_DATA_SUBTREE : List String :=
  ["tracking", "timecode", "messageDigest", "compression", "track",
   "frame", "format"]

/-- Loop body of `vmd_file_data`: nodes contributed by one whitelist key. -/
def fileDataNodes (drate_attr frate_attr srate_attr : Option (List (String × String)))
    (location_type : Option String) (params : Params) (key : String) : List Elem :=
  match plookup params key with
  | none => []
  | some .null => []
  | some v =>
    if FILE_DATA_SUBTREE.contains key then
      addNodes v
    else if key = "location" then
      match v with
      | .str s => [_location s location_type]
      | _ => []
    else if ["dataRate", "frameRate", "sampleRate"].contains key then
      match v with
      | .str s => [_variable_rate key s (rateAttr drate_attr frate_attr srate_attr key)]
      | _ => []
    else
      simpleNodes key v

/-- `vmd_file_data(params, drate_attr, frate_attr, srate_attr, location_type)`. -/
def vmd_file_data (params : Params)
    (drate_attr : Option (List (String × String)) := none)
    (frate_attr : Option (List (String × String)) := none)
    (srate_attr : Option (List (String × String)) := none)
    (location_type : Option String := none) : Except String Elem :=
  (_check_params params FILE_DATA_PARAMS).map (fun _ =>
    Elem.mk (vNs "fileData") [] none
      (FILE_DATA_PARAMS.flatMap
        (fileDataNodes drate_attr frate_attr srate_attr location_type params)))

/-- Loop body shared by `vmd_format`, `vmd_codec` and `vmd_material`:
every present, non-`None` key goes through `_simple_elements`. -/
def simpleSectionNodes (params : Params) (key : String) : List Elem :=
  match plookup params key with
  | none => []
  | some .null => []
  | some v => simpleNodes key v

/-- `vmd_format(params)`. -/
def vmd_format (params : Params) : Except String Elem :=
  (_check_params params FORMAT_PARAMS).map (fun _ =>
    Elem.mk (vNs "format") [] none
      (FORMAT_PARAMS.flatMap (simpleSectionNodes params)))

/-- `vmd_codec(params)`. -/
def vmd_codec (params : Params) : Except String Elem :=
  (_check_params params CODEC_PARAMS).map (fun _ =>
    Elem.mk (vNs "codec") [] none
      (CODEC_PARAMS.flatMap (simpleSectionNodes params)))

/-- The subtree-valued keys of `vmd_track` (inline list in the source). -/
def TRACK_SUBTREE : List String := ["tracking", "timecode", "codec", "frame"]

/-- Loop body of `vmd_track`. -/
def trackNodes (drate_attr frate_attr srate_attr : Option (List (String × String)))
    (params : Params) (key : String) : List Elem :=
  match plookup params key with
  | none => []
  | some .null => []
  | some v =>
    if TRACK_SUBTREE.contains key then
      addNodes v
    else if ["dataRate", "frameRate", "sampleRate"].contains key then
      match v with
      | .str s => [_variable_rate key s (rateAttr drate_attr frate_attr srate_attr key)]
      | _ => []
    else
      simpleNodes key v

/-- The optional `num` / `type` attributes `vmd_track` sets on the track
element before walking the whitelist. -/
def optAttr (name : String) : Option String → List (String × String)
  | none => []
  | some v => [(name, v)]

/-- `vmd_track(params, track_num, track_type, drate_attr, frate_attr, srate_attr)`. -/
def vmd_track (params : Params)
    (track_num : Option String := none) (track_type : Option String := none)
    (drate_attr : Option (List (String × String)) := none)
    (frate_attr : Option (List (String × String)) := none)
    (srate_attr : Option (List (String × String)) := none) : Except String Elem :=
  (_check_params params TRACK_PARAMS).map (fun _ =>
    Elem.mk (vNs "track") (optAttr "num" track_num ++ optAttr "type" track_type) none
      (TRACK_PARAMS.flatMap (trackNodes drate_attr frate_attr srate_attr params)))

/-- The subtree-valued keys of `vmd_physical_data` (inline list in the source). -/
def PHYSICAL_DATA_SUBTREE : List String :=
  ["dimensions", "dtv", "material", "timecode", "tracking"]

/-- Loop body of `vmd_physical_data`. -/
def physicalDataNodes (params : Params) (key : String) : List Elem :=
  match plookup params key with
  | none => []
  | some .null => []
  | some v =>
    if PHYSICAL_DATA_SUBTREE.contains key then
      addNodes v
    else
      simpleNodes key v

/-- `vmd_physical_data(params)`. -/
def vmd_physical_data (params : Params) : Except String Elem :=
  (_check_params params PHYSICAL_DATA_PARAMS).map (fun _ =>
    Elem.mk (vNs "physicalData") [] none
      (PHYSICAL_DATA_PARAMS.flatMap (physicalDataNodes params)))

/-- Loop body of `vmd_dimensions`: the attribute a whitelist key
contributes.  A present non-string value makes `elem.set` raise in lxml;
such values are outside the model and set no attribute. -/
def dimAttr (params : Params) (key : String) : Option (String × String) :=
  match plookup params key with
  | some (.str s) => some (key, s)
  | _ => none

/-- `vmd_dimensions(params)`: whitelist keys become attributes on the
`dimensions` element, not children. -/
def vmd_dimensions (params : Params) : Except String Elem :=
  (_check_params params DIMENSIONS_PARAMS).map (fun _ =>
    Elem.mk (vNs "dimensions")
      (DIMENSIONS_PARAMS.filterMap (dimAttr params))
      none [])

/-- `vmd_material(params)`. -/
def vmd_material (params : Params) : Except String Elem :=
  (_check_params params MATERIAL_PARAMS).map (fun _ =>
    Elem.mk (vNs "material") [] none
      (MATERIAL_PARAMS.flatMap (simpleSectionNodes params)))

/-!  ## Basic lemmas about the embedding  -/

/-- All internal constructions call `videomd_ns` with the default (empty)
prefix, where it is total and equal to `vNs`. -/
lemma videomd_ns_no_prefix (tag : String) : videomd_ns tag = some (vNs tag) := rfl

/-- A parameter mapping is valid for a whitelist when every key belongs
to the whitelist. -/
abbrev validP (p : Params) (wl : List String) : Prop := ∀ kv ∈ p, kv.1 ∈ wl

lemma contains_eq_true_iff {wl : List String} {k : String} :
    wl.contains k = true ↔ k ∈ wl := by
  simp [List.contains, List.elem_iff]

lemma check_params_ok {p : Params} {wl : List String} (h : validP p wl) :
    _check_params p wl = .ok () := by
  induction p with
  | nil => rfl
  | cons kv rest ih =>
    have hk : kv.1 ∈ wl := h kv (List.mem_cons_self kv rest)
    have hrest : validP rest wl := fun kv' h' => h kv' (List.mem_cons_of_mem _ h')
    cases kv with
    | mk k v => simpa [_check_params, hk] using ih hrest

lemma check_params_err {p : Params} {wl : List String}
    (h : ∃ kv ∈ p, kv.1 ∉ wl) :
    ∃ k, (∃ v, (k, v) ∈ p) ∧ k ∉ wl ∧ _check_params p wl = .error (errMsg k) := by
  induction p with
  | nil => obtain ⟨kv, hmem, _⟩ := h; cases hmem
  | cons kv rest ih =>
    obtain ⟨k0, v0⟩ := kv
    by_cases hc : k0 ∈ wl
    · obtain ⟨kv', hmem', hbad'⟩ := h
      rcases List.mem_cons.mp hmem' with heq | htail
      · exact absurd (heq ▸ hc) hbad'
      · obtain ⟨k, ⟨v, hv⟩, hk, herr⟩ := ih ⟨kv', htail, hbad'⟩
        refine ⟨k, ⟨v, List.mem_cons_of_mem _ hv⟩, hk, ?_⟩
        simpa [_check_params, hc] using herr
    · refine ⟨k0, ⟨v0, List.mem_cons_self _ _⟩, hc, ?_⟩
      simp [_check_params, hc]

/-- Error propagation through the assembler body: when some key violates
the whitelist, `_check_params` fails and `Except.map` keeps the error,
so no node is built. -/
lemma section_error {p : Params} {wl : List String} (build : Unit → Elem)
    (h : ∃ kv ∈ p, kv.1 ∉ wl) :
    ∃ k, (∃ v, (k, v) ∈ p) ∧ k ∉ wl ∧
      (_check_params p wl).map build = .error (errMsg k) := by
  obtain ⟨k, hkv, hk, herr⟩ := check_params_err h
  exact ⟨k, hkv, hk, by rw [herr]; rfl⟩

lemma plookup_mem {p : Params} {k : String} {v : Value}
    (h : plookup p k = some v) : (k, v) ∈ p := by
  induction p with
  | nil => simp [plookup] at h
  | cons kv rest ih =>
    obtain ⟨k', v'⟩ := kv
    by_cases hk : k' = k
    · subst hk
      simp [plookup] at h
      subst h
      exact List.mem_cons_self _ _
    · simp [plookup, hk] at h
      exact List.mem_cons_of_mem _ (ih h)

lemma plookup_isSome_of_mem {p : Params} {k : String} {v : Value}
    (h : (k, v) ∈ p) : ∃ w, plookup p k = some w := by
  induction p with
  | nil => cases h
  | cons kv rest ih =>
    obtain ⟨k', v'⟩ := kv
    by_cases hk : k' = k
    · exact ⟨v', by simp [plookup, hk]⟩
    · rcases List.mem_cons.mp h with heq | htail
      · injection heq with h1 h2
        exact absurd h1.symm hk
      · simpa [plookup, hk] using ih htail

lemma validP_of_lookup_eq {p1 p2 : Params} {wl : List String}
    (hl : ∀ k, plookup p1 k = plookup p2 k) (h : validP p1 wl) :
    validP p2 wl := by
  intro kv hkv
  obtain ⟨k, v⟩ := kv
  obtain ⟨w, hw⟩ := plookup_isSome_of_mem hkv
  have h1 : plookup p1 k = some w := by rw [hl k]; exact hw
  exact h (k, w) (plookup_mem h1)

/-- Position of a namespaced tag in the (namespaced) whitelist. -/
def rankIn (wl : List String) (t : String) : Nat :=
  match wl with
  | [] => 0
  | k :: rest => if vNs k = t then 0 else rankIn rest t + 1

/-- The children of `e` carry tags in the declaration order of `wl`. -/
def orderedChildren (wl : List String) (e : Elem) : Prop :=
  (e.children.map Elem.tag).Pairwise (fun a b => rankIn wl a ≤ rankIn wl b)

lemma vNs_inj {a b : String} (h : vNs a = vNs b) : a = b := by
  have h2 := congrArg String.data h
  simp only [vNs, String.data_append] at h2
  exact String.ext (List.append_cancel_left h2)

lemma pairwise_vNs_ne {wl : List String} (h : wl.Nodup) :
    wl.Pairwise (fun a b => vNs a ≠ vNs b) :=
  h.imp (fun hne he => hne (vNs_inj he))

lemma mem_map_tag_flatMap {l : List String} {g : String → List Elem} {a : String}
    (htag : ∀ k ∈ l, ∀ e ∈ g k, e.tag = vNs k)
    (ha : a ∈ (l.flatMap g).map Elem.tag) : ∃ k ∈ l, a = vNs k := by
  obtain ⟨e, he, rfl⟩ := List.mem_map.mp ha
  obtain ⟨k, hk, hek⟩ := List.mem_flatMap.mp he
  exact ⟨k, hk, htag k hk e hek⟩

/-- Walking a whitelist in declaration order and emitting, for each key,
only nodes tagged with that key yields children whose tags are sorted by
whitelist position. -/
lemma pairwise_rank_flatMap {wl : List String} (g : String → List Elem)
    (hinj : wl.Pairwise (fun a b => vNs a ≠ vNs b))
    (htag : ∀ k ∈ wl, ∀ e ∈ g k, e.tag = vNs k) :
    ((wl.flatMap g).map Elem.tag).Pairwise
      (fun a b => rankIn wl a ≤ rankIn wl b) := by
  induction wl with
  | nil => simp
  | cons k0 rest ih =>
    obtain ⟨hne, hinj'⟩ := List.pairwise_cons.mp hinj
    have htag' : ∀ k ∈ rest, ∀ e ∈ g k, e.tag = vNs k :=
      fun k hk => htag k (List.mem_cons_of_mem _ hk)
    have htags0 : ∀ a ∈ (g k0).map Elem.tag, a = vNs k0 := by
      intro a ha
      obtain ⟨e, he, rfl⟩ := List.mem_map.mp ha
      exact htag k0 (List.mem_cons_self _ _) e he
    rw [List.flatMap_cons, List.map_append, List.pairwise_append]
    refine ⟨?_, ?_, ?_⟩
    · apply List.pairwise_of_forall_mem_list
      intro a ha b hb
      rw [htags0 a ha, htags0 b hb]
    · refine (ih hinj' htag').imp_of_mem ?_
      intro a b ha hb hab
      obtain ⟨ka, hka, rfl⟩ := mem_map_tag_flatMap htag' ha
      obtain ⟨kb, hkb, rfl⟩ := mem_map_tag_flatMap htag' hb
      have ra : rankIn (k0 :: rest) (vNs ka) = rankIn rest (vNs ka) + 1 := by
        simp [rankIn, hne ka hka]
      have rb : rankIn (k0 :: rest) (vNs kb) = rankIn rest (vNs kb) + 1 := by
        simp [rankIn, hne kb hkb]
      rw [ra, rb]
      exact Nat.succ_le_succ hab
    · intro a ha b hb
      rw [htags0 a ha]
      have : rankIn (k0 :: rest) (vNs k0) = 0 := by simp [rankIn]
      rw [this]
      exact Nat.zero_le _

/-- The intended-use condition on subtree-valued parameters: a pre-built
node (or list of nodes) stored under a subtree key carries that key's
tag, as every sub-assembler of the library guarantees (`vmd_timecode`
builds a `timecode` element, `vmd_track` a `track` element, and so on). -/
abbrev subtreeOK (keys : List String) (p : Params) : Prop :=
  ∀ k ∈ keys, ∀ e ∈ addNodes ((plookup p k).getD .null), e.tag = vNs k

lemma addNodes_tag_of_subtreeOK {keys : List String} {p : Params}
    (hp : subtreeOK keys p) {k : String} (hk : keys.contains k = true)
    {v : Value} (hv : plookup p k = some v) {e : Elem}
    (he : e ∈ addNodes v) : e.tag = vNs k :=
  hp k (contains_eq_true_iff.mp hk) e (by rw [hv]; exact he)

lemma simpleNodes_tag {k : String} {v : Value} {e : Elem}
    (h : e ∈ simpleNodes k v) : e.tag = vNs k := by
  cases v with
  | str s =>
    simp [simpleNodes] at h
    subst h
    rfl
  | strs ss =>
    simp [simpleNodes, List.mem_map] at h
    obtain ⟨s, _, rfl⟩ := h
    rfl
  | null => simp [simpleNodes] at h
  | elem e' => simp [simpleNodes] at h
  | elems es => simp [simpleNodes] at h

lemma variable_rate_tag {key rate : String}
    {ad : Option (List (String × String))} :
    (_variable_rate key rate ad).tag = vNs key := by
  cases ad <;> rfl

lemma location_tag {loc : String} {lt : Option String} :
    (_location loc lt).tag = vNs "location" := by
  cases lt with
  | none => rfl
  | some t =>
    simp only [_location]
    split <;> rfl

lemma fileDataNodes_tag {d f s : Option (List (String × String))}
    {lt : Option String} {p : Params} (hp : subtreeOK FILE_DATA_SUBTREE p)
    {k : String} {e : Elem}
    (he : e ∈ fileDataNodes d f s lt p k) : e.tag = vNs k := by
  cases hv : plookup p k with
  | none =>
    simp only [fileDataNodes, hv] at he
    exact absurd he (List.not_mem_nil e)
  | some v =>
    cases v with
    | null =>
      simp only [fileDataNodes, hv] at he
      exact absurd he (List.not_mem_nil e)
    | str sv =>
      simp only [fileDataNodes, hv] at he
      split_ifs at he with h1 h2 h3
      · exact addNodes_tag_of_subtreeOK hp h1 hv he
      · rcases List.mem_singleton.mp he with rfl
        rw [h2]
        exact location_tag
      · rcases List.mem_singleton.mp he with rfl
        exact variable_rate_tag
      · exact simpleNodes_tag he
    | strs ss =>
      simp only [fileDataNodes, hv] at he
      split_ifs at he with h1 h2 h3
      · exact addNodes_tag_of_subtreeOK hp h1 hv he
      · exact absurd he (List.not_mem_nil e)
      · exact absurd he (List.not_mem_nil e)
      · exact simpleNodes_tag he
    | elem e' =>
      simp only [fileDataNodes, hv] at he
      split_ifs at he with h1 h2 h3
      · exact addNodes_tag_of_subtreeOK hp h1 hv he
      · exact absurd he (List.not_mem_nil e)
      · exact absurd he (List.not_mem_nil e)
      · exact simpleNodes_tag he
    | elems es =>
      simp only [fileDataNodes, hv] at he
      split_ifs at he with h1 h2 h3
      · exact addNodes_tag_of_subtreeOK hp h1 hv he
      · exact absurd he (List.not_mem_nil e)
      · exact absurd he (List.not_mem_nil e)
      · exact simpleNodes_tag he

lemma trackNodes_tag {d f s : Option (List (String × String))}
    {p : Params} (hp : subtreeOK TRACK_SUBTREE p) {k : String} {e : Elem}
    (he : e ∈ trackNodes d f s p k) : e.tag = vNs k := by
  cases hv : plookup p k with
  | none =>
    simp only [trackNodes, hv] at he
    exact absurd he (List.not_mem_nil e)
  | some v =>
    cases v with
    | null =>
      simp only [trackNodes, hv] at he
      exact absurd he (List.not_mem_nil e)
    | str sv =>
      simp only [trackNodes, hv] at he
      split_ifs at he with h1 h2
      · exact addNodes_tag_of_subtreeOK hp h1 hv he
      · rcases List.mem_singleton.mp he with rfl
        exact variable_rate_tag
      · exact simpleNodes_tag he
    | strs ss =>
      simp only [trackNodes, hv] at he
      split_ifs at he with h1 h2
      · exact addNodes_tag_of_subtreeOK hp h1 hv he
      · exact absurd he (List.not_mem_nil e)
      · exact simpleNodes_tag he
    | elem e' =>
      simp only [trackNodes, hv] at he
      split_ifs at he with h1 h2
      · exact addNodes_tag_of_subtreeOK hp h1 hv he
      · exact absurd he (List.not_mem_nil e)
      · exact simpleNodes_tag he
    | elems es =>
      simp only [trackNodes, hv] at he
      split_ifs at he with h1 h2
      · exact addNodes_tag_of_subtreeOK hp h1 hv he
      · exact absurd he (List.not_mem_nil e)
      · exact simpleNodes_tag he

lemma physicalDataNodes_tag {p : Params}
    (hp : subtreeOK PHYSICAL_DATA_SUBTREE p) {k : String} {e : Elem}
    (he : e ∈ physicalDataNodes p k) : e.tag = vNs k := by
  cases hv : plookup p k with
  | none =>
    simp only [physicalDataNodes, hv] at he
    exact absurd he (List.not_mem_nil e)
  | some v =>
    cases v with
    | null =>
      simp only [physicalDataNodes, hv] at he
      exact absurd he (List.not_mem_nil e)
    | str sv =>
      simp only [physicalDataNodes, hv] at he
      split_ifs at he with h1
      · exact addNodes_tag_of_subtreeOK hp h1 hv he
      · exact simpleNodes_tag he
    | strs ss =>
      simp only [physicalDataNodes, hv] at he
      split_ifs at he with h1
      · exact addNodes_tag_of_subtreeOK hp h1 hv he
      · exact simpleNodes_tag he
    | elem e' =>
      simp only [physicalDataNodes, hv] at he
      split_ifs at he with h1
      · exact addNodes_tag_of_subtreeOK hp h1 hv he
      · exact simpleNodes_tag he
    | elems es =>
      simp only [physicalDataNodes, hv] at he
      split_ifs at he with h1
      · exact addNodes_tag_of_subtreeOK hp h1 hv he
      · exact simpleNodes_tag he

lemma simpleSectionNodes_tag {p : Params} {k : String} {e : Elem}
    (he : e ∈ simpleSectionNodes p k) : e.tag = vNs k := by
  cases hv : plookup p k with
  | none =>
    simp only [simpleSectionNodes, hv] at he
    exact absurd he (List.not_mem_nil e)
  | some v =>
    cases v with
    | null =>
      simp only [simpleSectionNodes, hv] at he
      exact absurd he (List.not_mem_nil e)
    | str sv =>
      simp only [simpleSectionNodes, hv] at he
      exact simpleNodes_tag he
    | strs ss =>
      simp only [simpleSectionNodes, hv] at he
      exact simpleNodes_tag he
    | elem e' =>
      simp only [simpleSectionNodes, hv] at he
      exact simpleNodes_tag he
    | elems es =>
      simp only [simpleSectionNodes, hv] at he
      exact simpleNodes_tag he

lemma fileDataNodes_congr {d f s : Option (List (String × String))}
    {lt : Option String} {p1 p2 : Params}
    (hl : ∀ k, plookup p1 k = plookup p2 k) (k : String) :
    fileDataNodes d f s lt p1 k = fileDataNodes d f s lt p2 k := by
  unfold fileDataNodes
  rw [hl k]

lemma trackNodes_congr {d f s : Option (List (String × String))}
    {p1 p2 : Params} (hl : ∀ k, plookup p1 k = plookup p2 k) (k : String) :
    trackNodes d f s p1 k = trackNodes d f s p2 k := by
  unfold trackNodes
  rw [hl k]

lemma physicalDataNodes_congr {p1 p2 : Params}
    (hl : ∀ k, plookup p1 k = plookup p2 k) (k : String) :
    physicalDataNodes p1 k = physicalDataNodes p2 k := by
  unfold physicalDataNodes
  rw [hl k]

lemma simpleSectionNodes_congr {p1 p2 : Params}
    (hl : ∀ k, plookup p1 k = plookup p2 k) (k : String) :
    simpleSectionNodes p1 k = simpleSectionNodes p2 k := by
  unfold simpleSectionNodes
  rw [hl k]

lemma map_ok_unit {g : Unit → Elem} {x : Except String Unit} {e : Elem}
    (h : x.map g = .ok e) : e = g () := by
  cases x with
  | error s => simp [Except.map] at h
  | ok u =>
    cases u
    simp [Except.map] at h
    exact h.symm

/-!  ## C1  -/

/-- C1: every section assembler that takes a parameter mapping
(`vmd_file_data`, `vmd_track`, `vmd_format`, `vmd_codec`,
`vmd_physical_data`, `vmd_dimensions`, `vmd_material`) rejects a mapping
containing a key outside its whitelist: the call returns the
invalid-parameter error, whose message names the offending key, and no
element is returned. -/
theorem C1_invalid_parameter_rejected :
    (∀ p d f s lt, (∃ kv ∈ p, kv.1 ∉ FILE_DATA_PARAMS) →
      ∃ k, (∃ v, (k, v) ∈ p) ∧ k ∉ FILE_DATA_PARAMS ∧
        vmd_file_data p d f s lt = .error (errMsg k)) ∧
    (∀ p n t d f s, (∃ kv ∈ p, kv.1 ∉ TRACK_PARAMS) →
      ∃ k, (∃ v, (k, v) ∈ p) ∧ k ∉ TRACK_PARAMS ∧
        vmd_track p n t d f s = .error (errMsg k)) ∧
    (∀ p, (∃ kv ∈ p, kv.1 ∉ FORMAT_PARAMS) →
      ∃ k, (∃ v, (k, v) ∈ p) ∧ k ∉ FORMAT_PARAMS ∧
        vmd_format p = .error (errMsg k)) ∧
    (∀ p, (∃ kv ∈ p, kv.1 ∉ CODEC_PARAMS) →
      ∃ k, (∃ v, (k, v) ∈ p) ∧ k ∉ CODEC_PARAMS ∧
        vmd_codec p = .error (errMsg k)) ∧
    (∀ p, (∃ kv ∈ p, kv.1 ∉ PHYSICAL_DATA_PARAMS) →
      ∃ k, (∃ v, (k, v) ∈ p) ∧ k ∉ PHYSICAL_DATA_PARAMS ∧
        vmd_physical_data p = .error (errMsg k)) ∧
    (∀ p, (∃ kv ∈ p, kv.1 ∉ DIMENSIONS_PARAMS) →
      ∃ k, (∃ v, (k, v) ∈ p) ∧ k ∉ DIMENSIONS_PARAMS ∧
        vmd_dimensions p = .error (errMsg k)) ∧
    (∀ p, (∃ kv ∈ p, kv.1 ∉ MATERIAL_PARAMS) →
      ∃ k, (∃ v, (k, v) ∈ p) ∧ k ∉ MATERIAL_PARAMS ∧
        vmd_material p = .error (errMsg k)) := by
  refine ⟨fun p d f s lt h => ?_, fun p n t d f s h => ?_, fun p h => ?_,
    fun p h => ?_, fun p h => ?_, fun p h => ?_, fun p h => ?_⟩ <;>
    exact section_error _ h

/-- Witness for C1: each assembler, applied to a concrete mapping holding
the unknown key `"bogus"`, returns the invalid-parameter error. -/
theorem C1_invalid_parameter_rejected_witness :
    (∃ k, (∃ v, (k, v) ∈ ([("bogus", Value.str "x")] : Params)) ∧
      k ∉ FILE_DATA_PARAMS ∧
      vmd_file_data [("bogus", Value.str "x")] none none none none =
        .error (errMsg k)) ∧
    (∃ k, (∃ v, (k, v) ∈ ([("bogus", Value.str "x")] : Params)) ∧
      k ∉ TRACK_PARAMS ∧
      vmd_track [("bogus", Value.str "x")] none none none none none =
        .error (errMsg k)) ∧
    (∃ k, (∃ v, (k, v) ∈ ([("bogus", Value.str "x")] : Params)) ∧
      k ∉ FORMAT_PARAMS ∧
      vmd_format [("bogus", Value.str "x")] = .error (errMsg k)) ∧
    (∃ k, (∃ v, (k, v) ∈ ([("bogus", Value.str "x")] : Params)) ∧
      k ∉ CODEC_PARAMS ∧
      vmd_codec [("bogus", Value.str "x")] = .error (errMsg k)) ∧
    (∃ k, (∃ v, (k, v) ∈ ([("bogus", Value.str "x")] : Params)) ∧
      k ∉ PHYSICAL_DATA_PARAMS ∧
      vmd_physical_data [("bogus", Value.str "x")] = .error (errMsg k)) ∧
    (∃ k, (∃ v, (k, v) ∈ ([("bogus", Value.str "x")] : Params)) ∧
      k ∉ DIMENSIONS_PARAMS ∧
      vmd_dimensions [("bogus", Value.str "x")] = .error (errMsg k)) ∧
    (∃ k, (∃ v, (k, v) ∈ ([("bogus", Value.str "x")] : Params)) ∧
      k ∉ MATERIAL_PARAMS ∧
      vmd_material [("bogus", Value.str "x")] = .error (errMsg k)) := by
  have hbad : ∀ (wl : List String), "bogus" ∉ wl →
      ∃ kv ∈ ([("bogus", Value.str "x")] : Params), kv.1 ∉ wl :=
    fun wl h => ⟨("bogus", Value.str "x"), List.mem_cons_self _ _, h⟩
  exact ⟨C1_invalid_parameter_rejected.1 _ none none none none
      (hbad _ (by decide)),
    C1_invalid_parameter_rejected.2.1 _ none none none none none
      (hbad _ (by decide)),
    C1_invalid_parameter_rejected.2.2.1 _ (hbad _ (by decide)),
    C1_invalid_parameter_rejected.2.2.2.1 _ (hbad _ (by decide)),
    C1_invalid_parameter_rejected.2.2.2.2.1 _ (hbad _ (by decide)),
    C1_invalid_parameter_rejected.2.2.2.2.2.1 _ (hbad _ (by decide)),
    C1_invalid_parameter_rejected.2.2.2.2.2.2 _ (hbad _ (by decide))⟩

/-!  ## C2  -/

/-- C2: for every valid parameter mapping, each section assembler's
output depends only on the key-to-value lookup of the mapping — hence it
is independent of the mapping's insertion order — and the children of
the returned node carry tags in the whitelist's declaration order
(sorted by `rankIn`); for the assemblers accepting subtree-valued keys
this holds under the intended-use condition `subtreeOK` that a stored
subtree carries its key's tag. -/
theorem C2_children_in_whitelist_order :
    (∀ p1 p2 d f s lt, (∀ k, plookup p1 k = plookup p2 k) →
      validP p1 FILE_DATA_PARAMS →
      vmd_file_data p1 d f s lt = vmd_file_data p2 d f s lt) ∧
    (∀ p d f s lt e, subtreeOK FILE_DATA_SUBTREE p →
      vmd_file_data p d f s lt = .ok e →
      orderedChildren FILE_DATA_PARAMS e) ∧
    (∀ p1 p2 n t d f s, (∀ k, plookup p1 k = plookup p2 k) →
      validP p1 TRACK_PARAMS →
      vmd_track p1 n t d f s = vmd_track p2 n t d f s) ∧
    (∀ p n t d f s e, subtreeOK TRACK_SUBTREE p →
      vmd_track p n t d f s = .ok e → orderedChildren TRACK_PARAMS e) ∧
    (∀ p1 p2, (∀ k, plookup p1 k = plookup p2 k) →
      validP p1 FORMAT_PARAMS → vmd_format p1 = vmd_format p2) ∧
    (∀ p e, vmd_format p = .ok e → orderedChildren FORMAT_PARAMS e) ∧
    (∀ p1 p2, (∀ k, plookup p1 k = plookup p2 k) →
      validP p1 CODEC_PARAMS → vmd_codec p1 = vmd_codec p2) ∧
    (∀ p e, vmd_codec p = .ok e → orderedChildren CODEC_PARAMS e) ∧
    (∀ p1 p2, (∀ k, plookup p1 k = plookup p2 k) →
      validP p1 PHYSICAL_DATA_PARAMS →
      vmd_physical_data p1 = vmd_physical_data p2) ∧
    (∀ p e, subtreeOK PHYSICAL_DATA_SUBTREE p →
      vmd_physical_data p = .ok e →
      orderedChildren PHYSICAL_DATA_PARAMS e) ∧
    (∀ p1 p2, (∀ k, plookup p1 k = plookup p2 k) →
      validP p1 MATERIAL_PARAMS → vmd_material p1 = vmd_material p2) ∧
    (∀ p e, vmd_material p = .ok e → orderedChildren MATERIAL_PARAMS e) := by
  refine ⟨?_, ?_, ?_, ?_, ?_, ?_, ?_, ?_, ?_, ?_, ?_, ?_⟩
  · intro p1 p2 d f s lt hl hv1
    unfold vmd_file_data
    rw [check_params_ok hv1, check_params_ok (validP_of_lookup_eq hl hv1),
      funext (fileDataNodes_congr hl)]
  · intro p d f s lt e hp hok
    unfold vmd_file_data at hok
    rcases map_ok_unit hok with rfl
    exact pairwise_rank_flatMap _ (pairwise_vNs_ne (by decide))
      (fun k _ e' he' => fileDataNodes_tag hp he')
  · intro p1 p2 n t d f s hl hv1
    unfold vmd_track
    rw [check_params_ok hv1, check_params_ok (validP_of_lookup_eq hl hv1),
      funext (trackNodes_congr hl)]
  · intro p n t d f s e hp hok
    unfold vmd_track at hok
    rcases map_ok_unit hok with rfl
    exact pairwise_rank_flatMap _ (pairwise_vNs_ne (by decide))
      (fun k _ e' he' => trackNodes_tag hp he')
  · intro p1 p2 hl hv1
    unfold vmd_format
    rw [check_params_ok hv1, check_params_ok (validP_of_lookup_eq hl hv1),
      funext (simpleSectionNodes_congr hl)]
  · intro p e hok
    unfold vmd_format at hok
    rcases map_ok_unit hok with rfl
    exact pairwise_rank_flatMap _ (pairwise_vNs_ne (by decide))
      (fun k _ e' he' => simpleSectionNodes_tag he')
  · intro p1 p2 hl hv1
    unfold vmd_codec
    rw [check_params_ok hv1, check_params_ok (validP_of_lookup_eq hl hv1),
      funext (simpleSectionNodes_congr hl)]
  · intro p e hok
    unfold vmd_codec at hok
    rcases map_ok_unit hok with rfl
    exact pairwise_rank_flatMap _ (pairwise_vNs_ne (by decide))
      (fun k _ e' he' => simpleSectionNodes_tag he')
  · intro p1 p2 hl hv1
    unfold vmd_physical_data
    rw [check_params_ok hv1, check_params_ok (validP_of_lookup_eq hl hv1),
      funext (physicalDataNodes_congr hl)]
  · intro p e hp hok
    unfold vmd_physical_data at hok
    rcases map_ok_unit hok with rfl
    exact pairwise_rank_flatMap _ (pairwise_vNs_ne (by decide))
      (fun k _ e' he' => physicalDataNodes_tag hp he')
  · intro p1 p2 hl hv1
    unfold vmd_material
    rw [check_params_ok hv1, check_params_ok (validP_of_lookup_eq hl hv1),
      funext (simpleSectionNodes_congr hl)]
  · intro p e hok
    unfold vmd_material at hok
    rcases map_ok_unit hok with rfl
    exact pairwise_rank_flatMap _ (pairwise_vNs_ne (by decide))
      (fun k _ e' he' => simpleSectionNodes_tag he')

lemma plookup_swap_pair {k1 k2 : String} {v1 v2 : Value} (hne : k1 ≠ k2)
    (k : String) :
    plookup [(k1, v1), (k2, v2)] k = plookup [(k2, v2), (k1, v1)] k := by
  by_cases h1 : k1 = k
  · by_cases h2 : k2 = k
    · exact absurd (h1.trans h2.symm) hne
    · simp [plookup, h1, h2]
  · by_cases h2 : k2 = k <;> simp [plookup, h1, h2]

/-- Witness for C2: each assembler applied to a concrete two-key mapping
and to its reversal gives the same node, and each assembler's output on
a concrete mapping has its children in whitelist order. -/
theorem C2_children_in_whitelist_order_witness :
    (vmd_file_data [("duration", .str "PT1H"), ("color", .str "B&W")]
        none none none none =
      vmd_file_data [("color", .str "B&W"), ("duration", .str "PT1H")]
        none none none none) ∧
    orderedChildren FILE_DATA_PARAMS
      ((vmd_file_data [("frameRate", .str "24"), ("duration", .str "PT1H")]
          none none none none).toOption.getD (_element "fileData")) ∧
    (vmd_track [("duration", .str "PT1H"), ("language", .str "fi")]
        none none none none none =
      vmd_track [("language", .str "fi"), ("duration", .str "PT1H")]
        none none none none none) ∧
    orderedChildren TRACK_PARAMS
      ((vmd_track [("sampleRate", .str "48000"), ("duration", .str "PT1H")]
          none none none none none).toOption.getD (_element "track")) ∧
    (vmd_format [("name", .str "AVC"), ("version", .str "4")] =
      vmd_format [("version", .str "4"), ("name", .str "AVC")]) ∧
    orderedChildren FORMAT_PARAMS
      ((vmd_format [("version", .str "4"), ("name", .str "AVC")]).toOption.getD
        (_element "format")) ∧
    (vmd_codec [("name", .str "AVC"), ("codecID", .str "avc1")] =
      vmd_codec [("codecID", .str "avc1"), ("name", .str "AVC")]) ∧
    orderedChildren CODEC_PARAMS
      ((vmd_codec [("codecID", .str "avc1"), ("name", .str "AVC")]).toOption.getD
        (_element "codec")) ∧
    (vmd_physical_data [("condition", .str "good"), ("note", .str "n")] =
      vmd_physical_data [("note", .str "n"), ("condition", .str "good")]) ∧
    orderedChildren PHYSICAL_DATA_PARAMS
      ((vmd_physical_data [("note", .str "n"), ("condition", .str "good")]).toOption.getD
        (_element "physicalData")) ∧
    (vmd_material [("binder", .str "b"), ("oxide", .str "o")] =
      vmd_material [("oxide", .str "o"), ("binder", .str "b")]) ∧
    orderedChildren MATERIAL_PARAMS
      ((vmd_material [("oxide", .str "o"), ("binder", .str "b")]).toOption.getD
        (_element "material")) := by
  refine ⟨?_, ?_, ?_, ?_, ?_, ?_, ?_, ?_, ?_, ?_, ?_, ?_⟩
  · exact C2_children_in_whitelist_order.1
      [("duration", .str "PT1H"), ("color", .str "B&W")]
      [("color", .str "B&W"), ("duration", .str "PT1H")] none none none none
      (plookup_swap_pair (by decide)) (by decide)
  · exact C2_children_in_whitelist_order.2.1
      [("frameRate", .str "24"), ("duration", .str "PT1H")] none none none none _
      (by decide) rfl
  · exact C2_children_in_whitelist_order.2.2.1
      [("duration", .str "PT1H"), ("language", .str "fi")]
      [("language", .str "fi"), ("duration", .str "PT1H")] none none none none none
      (plookup_swap_pair (by decide)) (by decide)
  · exact C2_children_in_whitelist_order.2.2.2.1
      [("sampleRate", .str "48000"), ("duration", .str "PT1H")]
      none none none none none _ (by decide) rfl
  · exact C2_children_in_whitelist_order.2.2.2.2.1
      [("name", .str "AVC"), ("version", .str "4")]
      [("version", .str "4"), ("name", .str "AVC")]
      (plookup_swap_pair (by decide)) (by decide)
  · exact C2_children_in_whitelist_order.2.2.2.2.2.1
      [("version", .str "4"), ("name", .str "AVC")] _ rfl
  · exact C2_children_in_whitelist_order.2.2.2.2.2.2.1
      [("name", .str "AVC"), ("codecID", .str "avc1")]
      [("codecID", .str "avc1"), ("name", .str "AVC")]
      (plookup_swap_pair (by decide)) (by decide)
  · exact C2_children_in_whitelist_order.2.2.2.2.2.2.2.1
      [("codecID", .str "avc1"), ("name", .str "AVC")] _ rfl
  · exact C2_children_in_whitelist_order.2.2.2.2.2.2.2.2.1
      [("condition", .str "good"), ("note", .str "n")]
      [("note", .str "n"), ("condition", .str "good")]
      (plookup_swap_pair (by decide)) (by decide)
  · exact C2_children_in_whitelist_order.2.2.2.2.2.2.2.2.2.1
      [("note", .str "n"), ("condition", .str "good")] _ (by decide) rfl
  · exact C2_children_in_whitelist_order.2.2.2.2.2.2.2.2.2.2.1
      [("binder", .str "b"), ("oxide", .str "o")]
      [("oxide", .str "o"), ("binder", .str "b")]
      (plookup_swap_pair (by decide)) (by decide)
  · exact C2_children_in_whitelist_order.2.2.2.2.2.2.2.2.2.2.2
      [("oxide", .str "o"), ("binder", .str "b")] _ rfl

/-!  ## C3  -/

/-- C3: `create_videomd` always sets the fixed `xsi:schemaLocation` URL
pair and puts the caller's flag (any string, unvalidated; default
`"FileDigital"`) into `ANALOGDIGITALFLAG`, and the root's children are
exactly the supplied sections in the fixed order fileData, physicalData,
videoInfo, calibrationInfo, each independently optional. -/
theorem C3_create_videomd_root :
    (∀ flag fd pd vi ci,
      (create_videomd flag fd pd vi ci).tag = vNs "VIDEOMD" ∧
      (create_videomd flag fd pd vi ci).attrs =
        [("\x7b" ++ XSI_NS ++ "\x7d" ++ "schemaLocation",
          "http://www.loc.gov/VideoMD/ https://www.loc.gov/standards/vmdvmd/VideoMD.xsd"),
         ("ANALOGDIGITALFLAG", flag)] ∧
      (create_videomd flag fd pd vi ci).text = none ∧
      (create_videomd flag fd pd vi ci).children = [fd, pd, vi, ci].filterMap id) ∧
    (create_videomd : Elem) = create_videomd "FileDigital" none none none none := by
  refine ⟨fun flag fd pd vi ci => ⟨rfl, rfl, rfl, ?_⟩, rfl⟩
  cases fd <;> cases pd <;> cases vi <;> cases ci <;> rfl

/-!  ## C4  -/

lemma mem_filterMap_slookup {wl : List String} {d : List (String × String)}
    {k v : String} :
    (k, v) ∈ wl.filterMap (fun sk => (slookup d sk).map (fun w => (sk, w))) ↔
      (k ∈ wl ∧ slookup d k = some v) := by
  rw [List.mem_filterMap]
  constructor
  · rintro ⟨sk, hsk, hmap⟩
    cases hl : slookup d sk with
    | none => rw [hl] at hmap; cases hmap
    | some w =>
      rw [hl] at hmap
      injection hmap with h
      injection h with h1 h2
      subst h1
      subst h2
      exact ⟨hsk, hl⟩
  · rintro ⟨hk, hl⟩
    exact ⟨k, hk, by rw [hl]; rfl⟩

/-- C4: a variable-rate node's text is the rate value; with an attribute
mapping, exactly the keys of `VARIABLE_RATE_PARAMS` present in the
mapping become attributes with their mapped values (other keys are
silently ignored, omitted ones are absent); with no mapping the node has
no attributes. -/
theorem C4_variable_rate_attributes :
    ∀ key rate,
      ((_variable_rate key rate none).text = some rate ∧
       (_variable_rate key rate none).attrs = []) ∧
      ∀ ad, (_variable_rate key rate (some ad)).text = some rate ∧
        ∀ k v, ((k, v) ∈ (_variable_rate key rate (some ad)).attrs ↔
          (k ∈ VARIABLE_RATE_PARAMS ∧ slookup ad k = some v)) :=
  fun _ _ =>
    ⟨⟨rfl, rfl⟩, fun _ => ⟨rfl, fun _ _ => mem_filterMap_slookup⟩⟩

/-!  ## C5  -/

/-- C5: a location node's text is the location value; a type hint from
the closed set becomes the `type` attribute; any other hint yields
`type="OTHER"` with `otherType` carrying the hint verbatim; without a
hint the node has no attributes. -/
theorem C5_location_type_attribute :
    ∀ loc,
      ((_location loc none).text = some loc ∧ (_location loc none).attrs = []) ∧
      ∀ t, (_location loc (some t)).text = some loc ∧
        (t ∈ ["URN", "URL", "PURL", "HANDLE", "DOI"] →
          (_location loc (some t)).attrs = [("type", t)]) ∧
        (t ∉ ["URN", "URL", "PURL", "HANDLE", "DOI"] →
          (_location loc (some t)).attrs = [("type", "OTHER"), ("otherType", t)]) := by
  refine fun loc => ⟨⟨rfl, rfl⟩, fun t => ⟨?_, fun h => ?_, fun h => ?_⟩⟩
  · simp only [_location]
    split <;> rfl
  · have hb : (["URN", "URL", "PURL", "HANDLE", "DOI"] : List String).contains t
        = true := contains_eq_true_iff.mpr h
    simp only [_location]
    rw [if_pos hb]
    rfl
  · have hb : ¬ ((["URN", "URL", "PURL", "HANDLE", "DOI"] : List String).contains t
        = true) := fun hc => h (contains_eq_true_iff.mp hc)
    simp only [_location]
    rw [if_neg hb]
    rfl

/-- Witness for C5: a known hint becomes `type`; an unknown hint `"bar"`
becomes `type="OTHER"` plus `otherType="bar"`. -/
theorem C5_location_type_attribute_witness :
    (_location "file.mkv" (some "URL")).attrs = [("type", "URL")] ∧
    (_location "file.mkv" (some "bar")).attrs =
      [("type", "OTHER"), ("otherType", "bar")] :=
  ⟨((C5_location_type_attribute "file.mkv").2 "URL").2.1 (by decide),
   ((C5_location_type_attribute "file.mkv").2 "bar").2.2 (by decide)⟩

/-!  ## C6  -/

/-- C6: `_simple_elements` appends one leaf per element of a list value
(same tag, list order, exactly as many nodes as values), exactly one
leaf for a scalar value, and nothing for an absent (`None`) value. -/
theorem C6_simple_field_emission :
    ∀ parent name,
      (∀ ss, (_simple_elements parent (.strs ss) name).children =
          parent.children ++
            ss.map (fun s => Elem.mk (vNs name) [] (some s) []) ∧
        (_simple_elements parent (.strs ss) name).children.length =
          parent.children.length + ss.length) ∧
      (∀ s, (_simple_elements parent (.str s) name).children =
        parent.children ++ [Elem.mk (vNs name) [] (some s) []]) ∧
      _simple_elements parent .null name = parent := by
  intro parent name
  obtain ⟨t, a, x, c⟩ := parent
  exact ⟨fun ss => ⟨rfl, by simp [_simple_elements, Elem.addChildren,
      simpleNodes, Elem.children]⟩,
    fun s => rfl,
    by simp [_simple_elements, Elem.addChildren, simpleNodes]⟩

/-!  ## C7  -/

/-- Counterexample for C7: the file-data assembler sets no attributes at
all on the `fileData` node — in particular no track-number or track-type
attribute — even on a successful call. -/
theorem C7_counterexample_file_data_without_attributes :
    (vmd_file_data [("duration", Value.str "PT1H30M")] none none none
      none).map Elem.attrs = .ok [] := rfl

/-- C7 (amended): only the track assembler accepts direct non-dictionary
arguments for node-level attributes; supplied track number and type are
set (in that order) as attributes of the `track` node itself, for any
parameter mapping; the `fileData` node always carries no attributes
(its direct non-dictionary arguments configure child elements instead). -/
theorem C7_track_node_attributes :
    (∀ p n t d f s e, vmd_track p (some n) (some t) d f s = .ok e →
      e.attrs = [("num", n), ("type", t)]) ∧
    (∀ p d f s lt e, vmd_file_data p d f s lt = .ok e → e.attrs = []) := by
  constructor
  · intro p n t d f s e hok
    unfold vmd_track at hok
    rcases map_ok_unit hok with rfl
    rfl
  · intro p d f s lt e hok
    unfold vmd_file_data at hok
    rcases map_ok_unit hok with rfl
    rfl

/-- Witness for C7 (amended): concrete calls showing the track node's
`num`/`type` attributes and the attribute-less fileData node. -/
theorem C7_track_node_attributes_witness :
    ((vmd_track [("duration", Value.str "PT1H")] (some "1") (some "sound")
        none none none).toOption.getD (_element "track")).attrs =
      [("num", "1"), ("type", "sound")] ∧
    ((vmd_file_data [("duration", Value.str "PT1H")] none none none
        none).toOption.getD (_element "fileData")).attrs = [] :=
  ⟨C7_track_node_attributes.1 [("duration", Value.str "PT1H")] "1" "sound"
      none none none _ rfl,
   C7_track_node_attributes.2 [("duration", Value.str "PT1H")] none none none
      none _ rfl⟩

/-!  ## C8  -/

lemma dimAttr_eq_some {p : Params} {key k v : String} :
    dimAttr p key = some (k, v) ↔ (key = k ∧ plookup p k = some (.str v)) := by
  constructor
  · intro h
    cases hl : plookup p key with
    | none => simp [dimAttr, hl] at h
    | some w =>
      cases w with
      | str s =>
        simp only [dimAttr, hl] at h
        injection h with h2
        injection h2 with h3 h4
        subst h3
        subst h4
        exact ⟨rfl, hl⟩
      | null => simp [dimAttr, hl] at h
      | strs ss => simp [dimAttr, hl] at h
      | elem e => simp [dimAttr, hl] at h
      | elems es => simp [dimAttr, hl] at h
  · rintro ⟨rfl, hl⟩
    simp [dimAttr, hl]

/-- C8: for a valid parameter mapping whose values are strings or `None`
(the shapes `vmd_dimensions` handles), the call returns a node with no
children and no text, whose attributes are exactly the whitelisted keys
present with a string value, carrying their mapped values; a key present
with a null value contributes no attribute. -/
theorem C8_dimensions_keys_become_attributes :
    ∀ p, validP p DIMENSIONS_PARAMS → (∀ kv ∈ p, kv.2.isStrOrNull = true) →
      ∃ e, vmd_dimensions p = .ok e ∧ e.children = [] ∧ e.text = none ∧
        (∀ k v, ((k, v) ∈ e.attrs ↔
          (k ∈ DIMENSIONS_PARAMS ∧ plookup p k = some (.str v)))) ∧
        (∀ k, plookup p k = some .null → ∀ v, (k, v) ∉ e.attrs) := by
  intro p hv _
  have hiff : ∀ k v, ((k, v) ∈ DIMENSIONS_PARAMS.filterMap (dimAttr p) ↔
      (k ∈ DIMENSIONS_PARAMS ∧ plookup p k = some (.str v))) := by
    intro k v
    rw [List.mem_filterMap]
    constructor
    · rintro ⟨key, hkey, hm⟩
      obtain ⟨rfl, hl⟩ := dimAttr_eq_some.mp hm
      exact ⟨hkey, hl⟩
    · rintro ⟨hk, hl⟩
      exact ⟨k, hk, dimAttr_eq_some.mpr ⟨rfl, hl⟩⟩
  refine ⟨Elem.mk (vNs "dimensions") (DIMENSIONS_PARAMS.filterMap (dimAttr p))
      none [], ?_, rfl, rfl, hiff, ?_⟩
  · unfold vmd_dimensions
    rw [check_params_ok hv]
    rfl
  · intro k hknull v hmem
    have hl := ((hiff k v).mp hmem).2
    rw [hknull] at hl
    simp at hl

/-- Witness for C8: a concrete mapping holding two string dimensions and
one explicitly null dimension (`get_params` style) turns into exactly
the two string attributes on a childless, textless node, with the null
key contributing none. -/
theorem C8_dimensions_keys_become_attributes_witness :
    ∃ e, vmd_dimensions
        [("HEIGHT", .str "5"), ("DEPTH", Value.null), ("WIDTH", .str "3")] =
        .ok e ∧
      e.children = [] ∧ e.text = none ∧
      (∀ k v, ((k, v) ∈ e.attrs ↔
        (k ∈ DIMENSIONS_PARAMS ∧
          plookup [("HEIGHT", .str "5"), ("DEPTH", Value.null),
            ("WIDTH", .str "3")] k = some (.str v)))) ∧
      (∀ k, plookup [("HEIGHT", .str "5"), ("DEPTH", Value.null),
          ("WIDTH", .str "3")] k = some .null → ∀ v, (k, v) ∉ e.attrs) :=
  C8_dimensions_keys_become_attributes
    [("HEIGHT", .str "5"), ("DEPTH", Value.null), ("WIDTH", .str "3")]
    (by decide) (by decide)

/-!  ## C9  -/

/-- C9: the empty string is not treated as an absent value — supplying
`""` appends exactly one leaf with empty text, while only `None`
suppresses the node. -/
theorem C9_empty_string_not_absent :
    ∀ parent name,
      (_simple_elements parent (.str "") name).children =
        parent.children ++ [Elem.mk (vNs name) [] (some "") []] ∧
      _simple_elements parent .null name = parent := by
  intro parent name
  obtain ⟨t, a, x, c⟩ := parent
  exact ⟨rfl, by simp [_simple_elements, Elem.addChildren, simpleNodes]⟩

/-!  ## C10  -/

/-- C10: with a non-empty prefix, `videomd_ns` succeeds on every
non-empty tag, returning the namespace-qualified concatenation of the
prefix and the first-letter-capitalized tag, but fails (out-of-range
`tag[0]`) on the empty tag. -/
theorem C10_videomd_ns_empty_tag_fails :
    (∀ tag pfx, pfx ≠ "" → tag ≠ "" →
      videomd_ns tag pfx =
        some ("\x7b" ++ VIDEOMD_NS ++ "\x7d" ++ pfx ++ capFirst tag)) ∧
    (∀ pfx, pfx ≠ "" → videomd_ns "" pfx = none) := by
  constructor
  · intro tag pfx hp ht
    cases htag : tag.data with
    | nil => exact absurd (String.ext (by rw [htag])) ht
    | cons c cs => simp [videomd_ns, capFirst, hp, htag]
  · intro pfx hp
    simp [videomd_ns, hp]

/-- Witness for C10: `videomd_ns` on `("objectIdentifier", "linking")`
returns the qualified `linkingObjectIdentifier`, and fails on an empty
tag with the same prefix. -/
theorem C10_videomd_ns_empty_tag_fails_witness :
    videomd_ns "objectIdentifier" "linking" =
      some ("\x7b" ++ VIDEOMD_NS ++ "\x7d" ++ "linking" ++
        capFirst "objectIdentifier") ∧
    videomd_ns "" "linking" = none :=
  ⟨C10_videomd_ns_empty_tag_fails.1 "objectIdentifier" "linking"
      (by decide) (by decide),
   C10_videomd_ns_empty_tag_fails.2 "linking" (by decide)⟩

end VideoMD
